import Mathlib

/-!
# Verification of the rinha tree-walking interpreter

Shallow embedding of the interpreter (src/main.rs, src/fib.rs, src/ast.rs)
into Lean 4, and proofs about its evaluation semantics.

Modelling conventions:
* Rust `BigInt` is `Int`; `/` and `%` of `num_bigint` truncate toward zero,
  so they are embedded as `Int.tdiv` / `Int.tmod`.
* The Rust evaluator mutates a `&mut Context`; the embedding threads the
  context explicitly, and successful results return the updated context.
* `println!` side effects are threaded as a list of printed lines, in
  chronological order.
* The evaluator's recursion through closure bodies is not structural, so the
  embedding takes a fuel parameter that is spent exactly when a closure body
  is entered at a `Call`; every other recursive call of `eval` is structural
  in the term.  Running out of fuel gives the distinguished result
  `Res.fuelOut`.
* `x.arguments[0]` on an empty vector panics in Rust; the embedding returns
  the distinguished result `Res.oob`.
* The Rust `Context.inner` is a `HashMap<String, Output>`; it is embedded as
  an association list with overwrite-on-insert, which preserves lookup and
  insertion semantics (iteration order of the map is never observed by the
  interpreter).
* Rust enum variant names that collide with Lean keywords or core types are
  written in lowercase (`Term.bool` for `Term::Bool`, `Term.if_` for
  `Term::If`, ...).
* `ast.rs` stores `Int.value` as an `i32` that `eval` widens to `BigInt`;
  the embedding carries the literal as `Int` directly.
* The string order used by `Gt`/`Lt`/`Gte`/`Lte` is Lean's codepoint-
  lexicographic `String` order; Rust's `String` order is byte-lexicographic.
  The two agree on ASCII strings.
-/

namespace Rinha

/-- `ast.rs` `Location`: `{start, end, filename}` (`end` is a Lean keyword,
renamed to `endPos`). -/
structure Location where
  start : Nat
  endPos : Nat
  filename : String
deriving DecidableEq, Repr

/-- `ast.rs` `Parameter`: a parameter name with its location. -/
structure Parameter where
  text : String
  location : Location
deriving DecidableEq, Repr

/-- `ast.rs` `BinaryOp`. -/
inductive BinaryOp where
  | add | sub | mul | div | rem | eq | neq | lt | gt | lte | gte | and | or
deriving DecidableEq, Repr

/-- `ast.rs` `Term`: the AST.  Each variant carries the same fields as the
Rust struct of the same name (boxes erased, `Vec` as `List`). -/
inductive Term where
  | binary (lhs : Term) (op : BinaryOp) (rhs : Term) (location : Location)
  | bool (value : Bool) (location : Location)
  | call (callee : Term) (arguments : List Term) (location : Location)
  | first (value : Term) (location : Location)
  | function (parameters : List Parameter) (value : Term) (location : Location)
  | if_ (condition : Term) (then_ : Term) (otherwise : Term) (location : Location)
  | int (value : Int) (location : Location)
  | let_ (name : Parameter) (value : Term) (next : Term) (location : Location)
  | print (value : Term) (location : Location)
  | second (value : Term) (location : Location)
  | str (value : String) (location : Location)
  | tuple (first : Term) (second : Term) (location : Location)
  | var (text : String) (location : Location)

mutual
/-- `main.rs` `Output`: the runtime value type.  The `Closure` struct is
inlined as the `closure` constructor (body, args, captured context). -/
inductive Output where
  | bool (b : Bool)
  | int (i : Int)
  | str (s : String)
  | tuple (fst snd : Output)
  | closure (body : Term) (args : List Parameter) (context : Context)
  | void

/-- `main.rs` `Context`: one scope frame (`inner`) plus an optional parent
(`outter`, spelled as in the source). -/
inductive Context where
  | mk (outter : Option Context) (inner : List (String × Output))
end

namespace Context

/-- The `inner` field of a context. -/
def inner : Context → List (String × Output)
  | .mk _ i => i

/-- The `outter` field of a context. -/
def outter : Context → Option Context
  | .mk o _ => o

end Context

mutual
/-- Rust `#[derive(PartialEq)]` structural equality on `Term` (locations
included, as in the derived impl). -/
def beqTerm : Term → Term → Bool
  | .binary l1 o1 r1 loc1, .binary l2 o2 r2 loc2 =>
    beqTerm l1 l2 && o1 == o2 && beqTerm r1 r2 && loc1 == loc2
  | .bool v1 loc1, .bool v2 loc2 => v1 == v2 && loc1 == loc2
  | .call c1 a1 loc1, .call c2 a2 loc2 => beqTerm c1 c2 && beqTermList a1 a2 && loc1 == loc2
  | .first v1 loc1, .first v2 loc2 => beqTerm v1 v2 && loc1 == loc2
  | .function p1 v1 loc1, .function p2 v2 loc2 => p1 == p2 && beqTerm v1 v2 && loc1 == loc2
  | .if_ c1 t1 o1 loc1, .if_ c2 t2 o2 loc2 =>
    beqTerm c1 c2 && beqTerm t1 t2 && beqTerm o1 o2 && loc1 == loc2
  | .int v1 loc1, .int v2 loc2 => v1 == v2 && loc1 == loc2
  | .let_ n1 v1 x1 loc1, .let_ n2 v2 x2 loc2 =>
    n1 == n2 && beqTerm v1 v2 && beqTerm x1 x2 && loc1 == loc2
  | .print v1 loc1, .print v2 loc2 => beqTerm v1 v2 && loc1 == loc2
  | .second v1 loc1, .second v2 loc2 => beqTerm v1 v2 && loc1 == loc2
  | .str v1 loc1, .str v2 loc2 => v1 == v2 && loc1 == loc2
  | .tuple f1 s1 loc1, .tuple f2 s2 loc2 => beqTerm f1 f2 && beqTerm s1 s2 && loc1 == loc2
  | .var t1 loc1, .var t2 loc2 => t1 == t2 && loc1 == loc2
  | _, _ => false

/-- Elementwise equality of term lists (`Vec<Term>` `PartialEq`). -/
def beqTermList : List Term → List Term → Bool
  | [], [] => true
  | t :: ts, u :: us => beqTerm t u && beqTermList ts us
  | _, _ => false
end

mutual
/-- Rust `#[derive(PartialEq)]` structural equality on `Output`
(`Rc<RefCell<Context>>` compares the pointed-to contexts by value). -/
def beqOutput : Output → Output → Bool
  | .bool a, .bool b => a == b
  | .int a, .int b => a == b
  | .str a, .str b => a == b
  | .tuple a1 a2, .tuple b1 b2 => beqOutput a1 b1 && beqOutput a2 b2
  | .closure bd1 ar1 c1, .closure bd2 ar2 c2 =>
    beqTerm bd1 bd2 && ar1 == ar2 && beqContext c1 c2
  | .void, .void => true
  | _, _ => false

/-- Structural equality of contexts. -/
def beqContext : Context → Context → Bool
  | .mk o1 i1, .mk o2 i2 => beqOptContext o1 o2 && beqEntries i1 i2

/-- Equality of optional parent contexts. -/
def beqOptContext : Option Context → Option Context → Bool
  | none, none => true
  | some a, some b => beqContext a b
  | _, _ => false

/-- Elementwise equality of scope frames. -/
def beqEntries : List (String × Output) → List (String × Output) → Bool
  | [], [] => true
  | (k1, v1) :: r1, (k2, v2) :: r2 => k1 == k2 && beqOutput v1 v2 && beqEntries r1 r2
  | _, _ => false
end

/-- `HashMap::get` on the embedded association list. -/
def mapGet (name : String) : List (String × Output) → Option Output
  | [] => none
  | (k, v) :: rest => if k = name then some v else mapGet name rest

/-- `HashMap::insert` on the embedded association list (overwrites an
existing key, otherwise appends). -/
def mapInsert (name : String) (v : Output) : List (String × Output) → List (String × Output)
  | [] => [(name, v)]
  | (k, w) :: rest => if k = name then (name, v) :: rest else (k, w) :: mapInsert name v rest

/-- Name resolution of the `Term::Var` arm of `eval`: look in the current
frame, then walk the `outter` chain. -/
def ctxLookup (name : String) : Context → Option Output
  | .mk outter inner =>
    match mapGet name inner with
    | some v => some v
    | none =>
      match outter with
      | some c => ctxLookup name c
      | none => none

/-! ## fib.rs -/

/-- `fib.rs` `Matrix2x2`, as a structure of its four entries
(`x00 = m[0][0]`, `x01 = m[0][1]`, `x10 = m[1][0]`, `x11 = m[1][1]`). -/
structure Matrix2x2 where
  x00 : Int
  x01 : Int
  x10 : Int
  x11 : Int
deriving DecidableEq, Repr

/-- `fib.rs` `__matrix__x`: 2×2 integer matrix multiplication. -/
def __matrix__x (a b : Matrix2x2) : Matrix2x2 :=
  { x00 := a.x00 * b.x00 + a.x01 * b.x10
    x01 := a.x00 * b.x01 + a.x01 * b.x11
    x10 := a.x10 * b.x00 + a.x11 * b.x10
    x11 := a.x10 * b.x01 + a.x11 * b.x11 }

/-- `fib.rs` `__pow`, embedded with fuel: the Rust recursion never reaches a
base case for `nth ≤ 0` (an even `nth` recurses on `nth / 2`, so `0` recurses
on `0` forever), so the partial function returns `none` when the fuel runs
out.  `num_bigint` division and remainder truncate toward zero (`tdiv` /
`tmod`). -/
def __pow (fuel : Nat) (matrix : Matrix2x2) (nth : Int) : Option Matrix2x2 :=
  match fuel with
  | 0 => none
  | fuel + 1 =>
    if nth = 1 then
      some matrix
    else if nth.tmod 2 = 0 then
      match __pow fuel matrix (nth.tdiv 2) with
      | some half_pow => some (__matrix__x half_pow half_pow)
      | none => none
    else
      match __pow fuel matrix (nth - 1) with
      | some p => some (__matrix__x matrix p)
      | none => none

/-- The matrix `[[1, 1], [1, 0]]` (`init` in `__fib_matrix`). -/
def fibInit : Matrix2x2 := ⟨1, 1, 1, 0⟩

/-- `fib.rs` `__fib_matrix`: the `[1][0]` entry of `init ^ nth`.  The fuel
`nth.toNat + 1` is sufficient for every `nth ≥ 1` (proved below); for
`nth ≤ 0`, where the Rust function does not terminate, the embedding
returns the junk value `0` (the interpreter only calls this with
`nth ≥ 1000`). -/
def __fib_matrix (nth : Int) : Int :=
  match __pow (nth.toNat + 1) fibInit nth with
  | some res => res.x10
  | none => 0

/-- Loop of `__fib_iter`: `[b, a] = [&a + &b, b]` advances `(a, b)` to
`(b, a + b)`; `while i < nth` with `i` counting up from `0` runs the body
`nth.toNat` times. -/
def fibIterLoop : Nat → Int × Int → Int × Int
  | 0, p => p
  | n + 1, (a, b) => fibIterLoop n (b, a + b)

/-- `fib.rs` `__fib_iter`: iterate from `(0, 1)` and return `a`. -/
def __fib_iter (nth : Int) : Int :=
  (fibIterLoop nth.toNat (0, 1)).1

/-- Reference Fibonacci sequence as the spec states it:
`F(0)=0, F(1)=1, F(n+2)=F(n+1)+F(n)`.  This definition follows the spec's
words and is the comparison point for the refinement claim about the two
fast-path algorithms. -/
def fibSpec : Nat → Int
  | 0 => 0
  | 1 => 1
  | n + 2 => fibSpec (n + 1) + fibSpec n

/-! ## The evaluator -/

/-- `main.rs` `Error` (`end` renamed `endPos`). -/
structure Error where
  start : Nat
  endPos : Nat
  filename : String
  message : String
deriving DecidableEq, Repr

/-- `Error::new`. -/
def Error.new (message : String) (location : Location) : Error :=
  ⟨location.start, location.endPos, location.filename, message⟩

/-- Result of one evaluator run: `ok` carries the value, the caller-visible
updated context (the Rust `&mut Context` after the call) and the printed
lines so far; `err` a located error plus the lines printed before the
failure; `oob` models the Rust index-out-of-bounds panic on
`x.arguments[0]`; `fuelOut` is exhaustion of the embedding's fuel. -/
inductive Res where
  | ok (v : Output) (ctx : Context) (out : List String)
  | err (e : Error) (out : List String)
  | oob (out : List String)
  | fuelOut

/-- `impl fmt::Display for Output`: Bool/Int/Str render naturally, every
other variant renders as the empty string (`_ => Ok(())`). -/
def dispOutput : Output → String
  | .bool x => toString x
  | .int x => toString x
  | .str x => x
  | _ => ""

/-- The lines printed by the `Term::Print` arm for a given evaluated value:
Bool/Int/Str via their display form, Tuple as `(<fst>, <snd>)` with the
components via `dispOutput`, Closure as `<#closure>`, and Void prints
nothing at all (`Output::Void => ()`). -/
def printLines : Output → List String
  | .bool x => [toString x]
  | .int x => [toString x]
  | .str x => [x]
  | .tuple a b => ["(" ++ dispOutput a ++ ", " ++ dispOutput b ++ ")"]
  | .closure _ _ _ => ["<#closure>"]
  | .void => []

/-- The `match x.op` block of the `Term::Binary` arm, applied to the two
already-evaluated operands. -/
def applyBinary (op : BinaryOp) (lhs rhs : Output) (location : Location)
    (ctx : Context) (out : List String) : Res :=
  match op with
  | .add =>
    match lhs, rhs with
    | .int a, .int b => .ok (.int (a + b)) ctx out
    | .str a, .str b => .ok (.str (a ++ b)) ctx out
    | .str a, .int b => .ok (.str (a ++ toString b)) ctx out
    | .int a, .str b => .ok (.str (toString a ++ b)) ctx out
    | _, _ => .err (Error.new "Cannot perform add operation" location) out
  | .sub =>
    match lhs, rhs with
    | .int a, .int b => .ok (.int (a - b)) ctx out
    | _, _ => .err (Error.new "Cannot perform sub operation" location) out
  | .mul =>
    match lhs, rhs with
    | .int a, .int b => .ok (.int (a * b)) ctx out
    | _, _ => .err (Error.new "Cannot perform mul operation" location) out
  | .div =>
    match lhs, rhs with
    | .int a, .int b =>
      if b > 0 then .ok (.int (a.tdiv b)) ctx out
      else .err (Error.new "Arithmetic error, dividing by zero" location) out
    | _, _ => .err (Error.new "Cannot perform div operation" location) out
  | .eq => .ok (.bool (beqOutput lhs rhs)) ctx out
  | .neq => .ok (.bool (!beqOutput lhs rhs)) ctx out
  | .gt =>
    match lhs, rhs with
    | .int a, .int b => .ok (.bool (decide (a > b))) ctx out
    | .str a, .str b => .ok (.bool (decide (a > b))) ctx out
    | _, _ => .err (Error.new "Cannot perform gt operation" location) out
  | .lt =>
    match lhs, rhs with
    | .int a, .int b => .ok (.bool (decide (a < b))) ctx out
    | .str a, .str b => .ok (.bool (decide (a < b))) ctx out
    | _, _ => .err (Error.new "Cannot perform lt operation" location) out
  | .gte =>
    match lhs, rhs with
    | .int a, .int b => .ok (.bool (decide (a ≥ b))) ctx out
    | .str a, .str b => .ok (.bool (decide (a ≥ b))) ctx out
    | _, _ => .err (Error.new "Cannot perform gte operation" location) out
  | .lte =>
    match lhs, rhs with
    | .int a, .int b => .ok (.bool (decide (a ≤ b))) ctx out
    | .str a, .str b => .ok (.bool (decide (a ≤ b))) ctx out
    | _, _ => .err (Error.new "Cannot perform lte operation" location) out
  | .rem =>
    match lhs, rhs with
    | .int a, .int b =>
      if b > 0 then .ok (.int (a.tmod b)) ctx out
      else .err (Error.new "Arithmetic error, dividing by zero" location) out
    | _, _ => .err (Error.new "Cannot perform rem operation" location) out
  | .and =>
    match lhs with
    | .bool false => .ok (.bool false) ctx out
    | _ => .ok rhs ctx out
  | .or =>
    match lhs with
    | .bool true => .ok (.bool true) ctx out
    | _ => .ok rhs ctx out

/-- Insert into the current (innermost) frame of a context
(`context.inner.insert`). -/
def ctxInsert (name : String) (v : Output) : Context → Context
  | .mk outter inner => .mk outter (mapInsert name v inner)

/-- Result of the parameter-binding loop of the `Term::Call` arm: the filled
`new_context.inner`, the caller's threaded context, and the output lines. -/
inductive ArgsRes where
  | ok (inner : List (String × Output)) (ctx : Context) (out : List String)
  | err (e : Error) (out : List String)
  | oob (out : List String)
  | fuelOut

mutual

/-- `main.rs` `eval`.  The interpreter's recursion through closure bodies is
not structural, so the embedding spends one unit of fuel at every recursive
step (an artifact of the embedding, making `eval` structurally recursive on
the fuel); `Res.fuelOut` marks fuel exhaustion and is never an outcome of
the Rust code itself. -/
def eval : Nat → Term → Context → List String → Res
  | 0, _, _, _ => .fuelOut
  | _fuel + 1, .bool x _, context, out => .ok (.bool x) context out
  | _fuel + 1, .int x _, context, out => .ok (.int x) context out
  | _fuel + 1, .str x _, context, out => .ok (.str x) context out
  | fuel + 1, .print x _, context, out =>
    (match eval fuel x context out with
     | .ok expr ctx o => .ok .void ctx (o ++ printLines expr)
     | r => r)
  | fuel + 1, .binary lhs op rhs location, context, out =>
    (match eval fuel lhs context out with
     | .ok lv ctx1 out1 =>
       (match eval fuel rhs ctx1 out1 with
        | .ok rv ctx2 out2 => applyBinary op lv rv location ctx2 out2
        | r => r)
     | r => r)
  | fuel + 1, .if_ condition then_ otherwise location, context, out =>
    (match eval fuel condition context out with
     | .ok (.bool true) ctx o => eval fuel then_ ctx o
     | .ok (.bool false) ctx o => eval fuel otherwise ctx o
     | .ok _ _ o =>
       .err (Error.new "Condition expression not resolve to a boolean primitive" location) o
     | r => r)
  | fuel + 1, .tuple first second _, context, out =>
    (match eval fuel first context out with
     | .ok v1 ctx1 o1 =>
       (match eval fuel second ctx1 o1 with
        | .ok v2 ctx2 o2 => .ok (.tuple v1 v2) ctx2 o2
        | r => r)
     | r => r)
  | fuel + 1, .first value location, context, out =>
    (match eval fuel value context out with
     | .ok (.tuple a _) ctx o => .ok a ctx o
     | .ok _ _ o => .err (Error.new "Cannot access first of a non tuple argument" location) o
     | r => r)
  | fuel + 1, .second value location, context, out =>
    (match eval fuel value context out with
     | .ok (.tuple _ b) ctx o => .ok b ctx o
     | .ok _ _ o => .err (Error.new "Cannot access second of a non tuple argument" location) o
     | r => r)
  | _fuel + 1, .var text location, context, out =>
    (match ctxLookup text context with
     | some v => .ok v context out
     | none => .err (Error.new ("Variable " ++ text ++ " is not declared") location) out)
  | fuel + 1, .let_ name value next _, context, out =>
    (match eval fuel value context out with
     | .ok (.closure body args _) ctx1 o1 =>
       eval fuel next (ctxInsert name.text (.closure body args ctx1) ctx1) o1
     | .ok y ctx1 o1 => eval fuel next (ctxInsert name.text y ctx1) o1
     | r => r)
  | fuel + 1, .call callee arguments location, context, out =>
    (let new_context := Context.mk (some context) []
     match callee, arguments with
     | .var z zloc, args =>
       if z = "fib" then
         match args with
         | [] => .oob out
         | arg0 :: rest =>
           (match eval fuel arg0 context out with
            | .ok (.int nth) ctx1 o1 =>
              .ok (.int (if nth < 1000 then __fib_iter nth else __fib_matrix nth)) ctx1 o1
            | .ok _ ctx1 o1 =>
              evalCallOrdinary fuel new_context (.var z zloc) (arg0 :: rest) location ctx1 o1
            | r => r)
       else
         evalCallOrdinary fuel new_context (.var z zloc) args location context out
     | c, args => evalCallOrdinary fuel new_context c args location context out)
  | _fuel + 1, .function parameters value _, context, out =>
    .ok (.closure value parameters context) context out

/-- Lines 321–339 of `main.rs`: the ordinary call path after the fast-path
check — resolve the callee, check it is a closure, check arity, bind the
arguments into `new_context`, and evaluate the closure's body there.  Note
that the body runs in `new_context`, whose parent is the *caller's* context
(`new_context.outter`), and the value of the body is returned together with
the caller's context as left by the argument evaluation. -/
def evalCallOrdinary : Nat → Context → Term → List Term → Location → Context → List String → Res
  | 0, _, _, _, _, _, _ => .fuelOut
  | fuel + 1, new_context, callee, arguments, location, context, out =>
    match eval fuel callee context out with
    | .ok (.closure body args _) ctx1 o1 =>
      if args.length ≠ arguments.length then
        .err (Error.new "Arguments declaration differs parameters declaration" location) o1
      else
        match evalArgs fuel args arguments new_context.inner ctx1 o1 with
        | .ok filled ctx2 o2 =>
          match eval fuel body (.mk new_context.outter filled) o2 with
          | .ok v _ o3 => .ok v ctx2 o3
          | r => r
        | .err e o => .err e o
        | .oob o => .oob o
        | .fuelOut => .fuelOut
    | .ok _ _ o1 => .err (Error.new "Calling a not callable" location) o1
    | r => r

/-- The `for (param, arg) in y.args.zip(x.arguments)` binding loop:
evaluate each argument in the caller's (threaded) context and insert it
under the parameter name into the frame being built. -/
def evalArgs : Nat → List Parameter → List Term → List (String × Output) → Context → List String → ArgsRes
  | 0, _, _, _, _, _ => .fuelOut
  | fuel + 1, param :: restp, arg :: args, inner, ctx, out =>
    (match eval fuel arg ctx out with
     | .ok v ctx1 o1 => evalArgs fuel restp args (mapInsert param.text v inner) ctx1 o1
     | .err e o => .err e o
     | .oob o => .oob o
     | .fuelOut => .fuelOut)
  | _fuel + 1, [], _, inner, ctx, out => .ok inner ctx out
  | _fuel + 1, _ :: _, [], inner, ctx, out => .ok inner ctx out

end

/-! ## Concrete guest programs used as test inputs -/

/-- A dummy source location for concrete test programs. -/
def loc0 : Location := ⟨0, 0, "test"⟩

/-- The empty top-level context (`outter: None`, `inner: {}`), as built by
`main`. -/
def ctx0 : Context := .mk none []

/-- A parameter with the dummy location. -/
def pa (s : String) : Parameter := ⟨s, loc0⟩

/-- Guest program
`let adder = fn (x) => fn (y) => x + y; let add5 = adder(5); add5(3)`:
a function returned from another function, called after the outer call has
returned, whose free variable `x` must resolve in its defining scope. -/
def adderProg : Term :=
  .let_ (pa "adder")
    (.function [pa "x"]
      (.function [pa "y"] (.binary (.var "x" loc0) .add (.var "y" loc0) loc0) loc0) loc0)
    (.let_ (pa "add5") (.call (.var "adder" loc0) [.int 5 loc0] loc0)
      (.call (.var "add5" loc0) [.int 3 loc0] loc0) loc0) loc0

/-- Guest program `let id = fn (x) => x; id`: returns the closure bound by
the `Let`, so its captured environment can be inspected. -/
def idProg : Term :=
  .let_ (pa "id") (.function [pa "x"] (.var "x" loc0) loc0) (.var "id" loc0) loc0

/-- The closure value `fn (x) => x` as captured at the top level. -/
def idClosure : Output := .closure (.var "x" loc0) [pa "x"] ctx0

/-- Body of the guest factorial function:
`if (x == 0) { 1 } else { x * fact(x - 1) }`. -/
def factBody : Term :=
  .if_ (.binary (.var "x" loc0) .eq (.int 0 loc0) loc0)
    (.int 1 loc0)
    (.binary (.var "x" loc0) .mul
      (.call (.var "fact" loc0)
        [.binary (.var "x" loc0) .sub (.int 1 loc0) loc0] loc0) loc0)
    loc0

/-- Guest program `let fact = fn (x) => <factBody>; fact(n)`: a `Let`-bound
self-recursive factorial (the name `fact` is not the fast-path name). -/
def factProg (n : Int) : Term :=
  .let_ (pa "fact") (.function [pa "x"] factBody loc0)
    (.call (.var "fact" loc0) [.int n loc0] loc0) loc0

/-- The closure value created for `fact` by the `Let` arm: body, parameter
list, and the (never consulted) captured snapshot of the empty top-level
context. -/
def factClosure : Output := .closure factBody [pa "x"] ctx0

/-- The top-level context after the `let fact = ...` binding. -/
def factCtx : Context := .mk none [("fact", factClosure)]

/-- Termination of the Rust `__pow` recursion on `fibInit`, expressed in the
fuel model: some fuel makes it produce a result. -/
def powTerminates (nth : Int) : Prop :=
  ∃ fuel r, __pow fuel fibInit nth = some r

/-- A top-level context binding `name` to the one-parameter guest closure
`fn (x) => 0`. -/
def constFnCtx (name : String) : Context :=
  .mk none [(name, .closure (.int 0 loc0) [pa "x"] ctx0)]

/-! ## Theorems -/

/-- Claim C9: calling the bare name `fib` with an empty argument list makes
the evaluator index `arguments[0]` out of bounds (an `oob` outcome in the
embedding, a host panic in Rust) before any callee resolution or arity
check, for every context, fuel and prior output; in particular it never
returns the located arity-mismatch error. -/
theorem fib_zero_args_oob (fuel : Nat) (zloc location : Location)
    (ctx : Context) (out : List String) :
    eval (fuel + 1) (.call (.var "fib" zloc) [] location) ctx out = .oob out ∧
    ∀ e o, eval (fuel + 1) (.call (.var "fib" zloc) [] location) ctx out ≠ .err e o := by
  refine ⟨by simp [eval], ?_⟩
  intro e o
  simp [eval]

/-- Witness for `fib_zero_args_oob` at a concrete input: `fib()` in the
empty context is an out-of-bounds access, not an error result. -/
theorem fib_zero_args_oob_witness :
    eval 1 (.call (.var "fib" loc0) [] loc0) ctx0 [] = .oob [] :=
  (fib_zero_args_oob 0 loc0 loc0 ctx0 []).1

/-- Claim C1 (behaviour at the failing input): the program
`let adder = fn (x) => fn (y) => x + y; let add5 = adder(5); add5(3)` does
not evaluate to `8`; it fails with `Variable x is not declared`, because
the `Call` arm evaluates the closure body in a child of the *caller's*
context and never consults the closure's captured environment. -/
theorem adder_dynamic_scope :
    eval 20 adderProg ctx0 [] = .err ⟨0, 0, "test", "Variable x is not declared"⟩ [] :=
  rfl

/-- Claim C2 (behaviour at the failing input): in
`let id = fn (x) => x; id`, the closure value bound by the `Let` carries as
its captured environment the pre-insertion snapshot `ctx0`, which does not
contain the name `id`, and that environment is never updated afterwards. -/
theorem let_closure_capture_misses_self :
    eval 3 idProg ctx0 [] =
      .ok idClosure (.mk none [("id", idClosure)]) [] ∧
    ctxLookup "id" ctx0 = none :=
  ⟨rfl, rfl⟩

/-- Claim C8 (amended): a `Print` term whose operand evaluates to `v`
appends `printLines v` to the output — one line for Bool/Int/Str/Tuple/
Closure, *no line at all* for Void — and itself evaluates to Void with the
operand's context. -/
theorem print_semantics (fuel : Nat) (t : Term) (location : Location)
    (ctx ctx1 : Context) (out out1 : List String) (v : Output)
    (h : eval fuel t ctx out = .ok v ctx1 out1) :
    eval (fuel + 1) (.print t location) ctx out = .ok .void ctx1 (out1 ++ printLines v) ∧
    (v = .void → eval (fuel + 1) (.print t location) ctx out = .ok .void ctx1 out1) := by
  constructor
  · simp [eval, h]
  · intro hv
    subst hv
    simp [eval, h, printLines]

/-- Witness for `print_semantics` at a concrete input: printing the string
`ok` prints exactly the line `ok` and results in Void. -/
theorem print_semantics_witness :
    eval 1 (.str "ok" loc0) ctx0 [] = .ok (.str "ok") ctx0 [] ∧
    eval 2 (.print (.str "ok" loc0) loc0) ctx0 [] = .ok .void ctx0 ["ok"] :=
  ⟨rfl, (print_semantics 1 (.str "ok" loc0) loc0 ctx0 ctx0 [] [] (.str "ok") rfl).1⟩

/-- Claim C8 counterexample: printing a Void value emits no output line at
all, not an empty line: `print(print(1))` prints exactly `1` and nothing
for the outer print. -/
theorem print_void_no_line :
    eval 3 (.print (.print (.int 1 loc0) loc0) loc0) ctx0 [] = .ok .void ctx0 ["1"] ∧
    eval 3 (.print (.print (.int 1 loc0) loc0) loc0) ctx0 [] ≠ .ok .void ctx0 ["1", ""] := by
  refine ⟨rfl, ?_⟩
  rw [show eval 3 (.print (.print (.int 1 loc0) loc0) loc0) ctx0 [] = .ok .void ctx0 ["1"] from rfl]
  simp

/-- Claim C7: for `And`/`Or` both operands are evaluated (left then right,
the right one even when the left already decides the outcome — its context
mutations and print output `out2` appear in the result), then `And` returns
`Bool false` when the left value is `Bool false` and the right value
unchanged otherwise, `Or` returns `Bool true` when the left value is
`Bool true` and the right value unchanged otherwise, and the result is
always a success (never a type-mismatch error). -/
theorem and_or_semantics (fuel : Nat) (lhs rhs : Term) (location : Location)
    (ctx ctx1 ctx2 : Context) (out out1 out2 : List String) (v1 v2 : Output)
    (hL : eval fuel lhs ctx out = .ok v1 ctx1 out1)
    (hR : eval fuel rhs ctx1 out1 = .ok v2 ctx2 out2) :
    (v1 = .bool false →
      eval (fuel + 1) (.binary lhs .and rhs location) ctx out = .ok (.bool false) ctx2 out2) ∧
    (v1 ≠ .bool false →
      eval (fuel + 1) (.binary lhs .and rhs location) ctx out = .ok v2 ctx2 out2) ∧
    (v1 = .bool true →
      eval (fuel + 1) (.binary lhs .or rhs location) ctx out = .ok (.bool true) ctx2 out2) ∧
    (v1 ≠ .bool true →
      eval (fuel + 1) (.binary lhs .or rhs location) ctx out = .ok v2 ctx2 out2) := by
  refine ⟨?_, ?_, ?_, ?_⟩ <;> intro hv
  · subst hv; simp [eval, hL, hR, applyBinary]
  · cases v1 <;> simp_all [eval, hL, hR, applyBinary]
  · subst hv; simp [eval, hL, hR, applyBinary]
  · cases v1 <;> simp_all [eval, hL, hR, applyBinary]

/-- Witness for `and_or_semantics`: `false && 5` yields `false` with the
right operand still evaluated, and `false || 5` yields `5`. -/
theorem and_or_semantics_witness :
    eval 1 (.bool false loc0) ctx0 [] = .ok (.bool false) ctx0 [] ∧
    eval 2 (.binary (.bool false loc0) .and (.int 5 loc0) loc0) ctx0 [] =
      .ok (.bool false) ctx0 [] ∧
    eval 2 (.binary (.bool false loc0) .or (.int 5 loc0) loc0) ctx0 [] =
      .ok (.int 5) ctx0 [] := by
  have h := and_or_semantics 1 (.bool false loc0) (.int 5 loc0) loc0
    ctx0 ctx0 ctx0 [] [] [] (.bool false) (.int 5) rfl rfl
  exact ⟨rfl, h.1 rfl, h.2.2.2 (by simp)⟩

/-- Claim C6: for a `Div`/`Rem` term whose operands evaluate to integers
`a` and `b`, a strictly positive `b` gives the truncated quotient or
remainder, while `b ≤ 0` gives the error
`Arithmetic error, dividing by zero`; when either operand is not an Int,
the result is `Cannot perform div operation` / `Cannot perform rem
operation`. -/
theorem div_rem_semantics (fuel : Nat) (lhs rhs : Term) (location : Location)
    (ctx ctx1 ctx2 : Context) (out out1 out2 : List String) (v1 v2 : Output)
    (hL : eval fuel lhs ctx out = .ok v1 ctx1 out1)
    (hR : eval fuel rhs ctx1 out1 = .ok v2 ctx2 out2) :
    (∀ a b : Int, v1 = .int a → v2 = .int b →
      (0 < b →
        eval (fuel + 1) (.binary lhs .div rhs location) ctx out =
          .ok (.int (a.tdiv b)) ctx2 out2 ∧
        eval (fuel + 1) (.binary lhs .rem rhs location) ctx out =
          .ok (.int (a.tmod b)) ctx2 out2) ∧
      (b ≤ 0 →
        eval (fuel + 1) (.binary lhs .div rhs location) ctx out =
          .err (Error.new "Arithmetic error, dividing by zero" location) out2 ∧
        eval (fuel + 1) (.binary lhs .rem rhs location) ctx out =
          .err (Error.new "Arithmetic error, dividing by zero" location) out2)) ∧
    ((∀ a : Int, v1 ≠ .int a) ∨ (∀ b : Int, v2 ≠ .int b) →
      eval (fuel + 1) (.binary lhs .div rhs location) ctx out =
        .err (Error.new "Cannot perform div operation" location) out2 ∧
      eval (fuel + 1) (.binary lhs .rem rhs location) ctx out =
        .err (Error.new "Cannot perform rem operation" location) out2) := by
  constructor
  · intro a b ha hb
    subst ha; subst hb
    constructor
    · intro hpos
      constructor <;> simp [eval, hL, hR, applyBinary, hpos]
    · intro hnp
      have hneg : ¬ b > 0 := by omega
      constructor <;> simp [eval, hL, hR, applyBinary, hneg]
  · intro hni
    rcases hni with h | h
    · cases v1 <;> simp [eval, hL, hR, applyBinary] <;> exact absurd rfl (h _)
    · cases v2 <;> cases v1 <;> simp [eval, hL, hR, applyBinary] <;> exact absurd rfl (h _)

/-- Witness for `div_rem_semantics`: `10 / 2 = 5`, `10 % 2 = 0`,
`10 / (-1)` fails with the divide-by-zero message, and `"a" / 2` fails with
the div type error. -/
theorem div_rem_semantics_witness :
    eval 2 (.binary (.int 10 loc0) .div (.int 2 loc0) loc0) ctx0 [] = .ok (.int 5) ctx0 [] ∧
    eval 2 (.binary (.int 10 loc0) .rem (.int 2 loc0) loc0) ctx0 [] = .ok (.int 0) ctx0 [] ∧
    eval 2 (.binary (.int 10 loc0) .div (.int (-1) loc0) loc0) ctx0 [] =
      .err (Error.new "Arithmetic error, dividing by zero" loc0) [] ∧
    eval 2 (.binary (.str "a" loc0) .div (.int 2 loc0) loc0) ctx0 [] =
      .err (Error.new "Cannot perform div operation" loc0) [] := by
  have h1 := (div_rem_semantics 1 (.int 10 loc0) (.int 2 loc0) loc0
    ctx0 ctx0 ctx0 [] [] [] (.int 10) (.int 2) rfl rfl).1 10 2 rfl rfl
  have h2 := (div_rem_semantics 1 (.int 10 loc0) (.int (-1) loc0) loc0
    ctx0 ctx0 ctx0 [] [] [] (.int 10) (.int (-1)) rfl rfl).1 10 (-1) rfl rfl
  have h3 := (div_rem_semantics 1 (.str "a" loc0) (.int 2 loc0) loc0
    ctx0 ctx0 ctx0 [] [] [] (.str "a") (.int 2) rfl rfl).2
  exact ⟨(h1.1 (by norm_num)).1, (h1.1 (by norm_num)).2, (h2.2 (by norm_num)).1,
    (h3 (Or.inl (by intro a h; cases h))).1⟩

/-- Claim C5 (amended): the Fibonacci fast path is taken iff the callee is
syntactically the bare variable `fib` applied to a *nonempty* argument list
whose first argument evaluates to an Int — the argument count is never
checked (extra arguments are ignored; zero arguments hit the out-of-bounds
index).  When the first argument evaluates to a non-Int value the call
falls through to ordinary callee resolution in the context as mutated by
that evaluation; for every other callee shape the ordinary path runs
directly. -/
theorem fastpath_condition (fuel : Nat) (location : Location) (ctx : Context)
    (out : List String) :
    (∀ (zloc : Location) (arg0 : Term) (rest : List Term) (nth : Int)
        (ctx1 : Context) (o1 : List String),
      eval fuel arg0 ctx out = .ok (.int nth) ctx1 o1 →
      eval (fuel + 1) (.call (.var "fib" zloc) (arg0 :: rest) location) ctx out =
        .ok (.int (if nth < 1000 then __fib_iter nth else __fib_matrix nth)) ctx1 o1) ∧
    (∀ (zloc : Location) (arg0 : Term) (rest : List Term) (v : Output)
        (ctx1 : Context) (o1 : List String),
      eval fuel arg0 ctx out = .ok v ctx1 o1 → (∀ n : Int, v ≠ .int n) →
      eval (fuel + 1) (.call (.var "fib" zloc) (arg0 :: rest) location) ctx out =
        evalCallOrdinary fuel (.mk (some ctx) []) (.var "fib" zloc) (arg0 :: rest)
          location ctx1 o1) ∧
    (∀ (z : String) (zloc : Location) (args : List Term), z ≠ "fib" →
      eval (fuel + 1) (.call (.var z zloc) args location) ctx out =
        evalCallOrdinary fuel (.mk (some ctx) []) (.var z zloc) args location ctx out) ∧
    (∀ (callee : Term) (args : List Term), (∀ z zloc, callee ≠ .var z zloc) →
      eval (fuel + 1) (.call callee args location) ctx out =
        evalCallOrdinary fuel (.mk (some ctx) []) callee args location ctx out) := by
  refine ⟨?_, ?_, ?_, ?_⟩
  · intro zloc arg0 rest nth ctx1 o1 h
    simp [eval, h]
  · intro zloc arg0 rest v ctx1 o1 h hv
    cases v <;> simp_all [eval, h]
  · intro z zloc args hz
    simp [eval, hz]
  · intro callee args hc
    cases callee <;> simp [eval]
    exact absurd rfl (hc _ _)

/-- Claim C5 counterexample: `fib(1, 2)` with `fib` unbound takes the fast
path (yielding `fib 1 = 1`) even though the argument count is two; the
ordinary resolution path on the same inputs would have failed with
`Variable fib is not declared`. -/
theorem fastpath_two_args :
    eval 5 (.call (.var "fib" loc0) [.int 1 loc0, .int 2 loc0] loc0) ctx0 [] =
      .ok (.int 1) ctx0 [] ∧
    evalCallOrdinary 4 (.mk (some ctx0) []) (.var "fib" loc0)
        [.int 1 loc0, .int 2 loc0] loc0 ctx0 [] =
      .err (Error.new "Variable fib is not declared" loc0) [] :=
  ⟨rfl, rfl⟩

/-- Witness for `fastpath_condition`: `fib(10)` with `fib` unbound returns
`55` through the fast path, and a call to the unbound name `g` goes through
ordinary resolution and fails accordingly. -/
theorem fastpath_condition_witness :
    eval 1 (.int 10 loc0) ctx0 [] = .ok (.int 10) ctx0 [] ∧
    eval 2 (.call (.var "fib" loc0) [.int 10 loc0] loc0) ctx0 [] = .ok (.int 55) ctx0 [] ∧
    eval 2 (.call (.var "g" loc0) [.int 10 loc0] loc0) ctx0 [] =
      evalCallOrdinary 1 (.mk (some ctx0) []) (.var "g" loc0) [.int 10 loc0] loc0 ctx0 [] := by
  have h := fastpath_condition 1 loc0 ctx0 []
  refine ⟨rfl, ?_, h.2.2.1 "g" loc0 [.int 10 loc0] (by decide)⟩
  have h1 := h.1 loc0 (.int 10 loc0) [] 10 ctx0 [] rfl
  simpa using h1

/-- Claim C10: when the callee is the bare variable `fib` and the single
argument evaluates to a non-Int value, that argument is evaluated twice —
once by the fast-path check (from `ctx`/`out` to `ctx1`/`out1`) and once
more during parameter binding (from `ctx1`/`out1` on), so its print side
effects occur twice; for a callee with any other name the argument is
evaluated exactly once, directly from `ctx`/`out`. -/
theorem fib_arg_double_eval :
    (∀ (g : Nat) (t body : Term) (p : Parameter) (cap : Context)
        (zloc location : Location) (ctx ctx1 ctx2 ctx3 : Context)
        (out out1 out2 o3 : List String) (v v2 bv : Output),
      eval (g + 2) t ctx out = .ok v ctx1 out1 →
      (∀ n : Int, v ≠ .int n) →
      ctxLookup "fib" ctx1 = some (.closure body [p] cap) →
      eval g t ctx1 out1 = .ok v2 ctx2 out2 →
      eval (g + 1) body (.mk (some ctx) [(p.text, v2)]) out2 = .ok bv ctx3 o3 →
      eval (g + 3) (.call (.var "fib" zloc) [t] location) ctx out = .ok bv ctx2 o3) ∧
    (∀ (g : Nat) (z : String) (t body : Term) (p : Parameter) (cap : Context)
        (zloc location : Location) (ctx ctx2 ctx3 : Context)
        (out out2 o3 : List String) (v2 bv : Output),
      z ≠ "fib" →
      ctxLookup z ctx = some (.closure body [p] cap) →
      eval g t ctx out = .ok v2 ctx2 out2 →
      eval (g + 1) body (.mk (some ctx) [(p.text, v2)]) out2 = .ok bv ctx3 o3 →
      eval (g + 3) (.call (.var z zloc) [t] location) ctx out = .ok bv ctx2 o3) := by
  constructor
  · intro g t body p cap zloc location ctx ctx1 ctx2 ctx3 out out1 out2 o3 v v2 bv
      h1 hv hlook h2 h3
    cases g with
    | zero => rw [eval] at h2; cases h2
    | succ g =>
      cases v <;>
        simp_all [eval, evalCallOrdinary, evalArgs, mapInsert, Context.inner, Context.outter]
  · intro g z t body p cap zloc location ctx ctx2 ctx3 out out2 o3 v2 bv hz hlook h2 h3
    cases g with
    | zero => rw [eval] at h2; cases h2
    | succ g =>
      simp [eval, evalCallOrdinary, evalArgs, hz, hlook, h2, h3, mapInsert,
        Context.inner, Context.outter]

/-- Witness for `fib_arg_double_eval`: with `fib` bound to the guest
closure `fn (x) => 0`, the call `fib(print("hi"))` prints `hi` twice; the
same call through the name `g` prints `hi` once. -/
theorem fib_arg_double_eval_witness :
    eval 4 (.print (.str "hi" loc0) loc0) (constFnCtx "fib") [] =
      .ok .void (constFnCtx "fib") ["hi"] ∧
    eval 2 (.print (.str "hi" loc0) loc0) (constFnCtx "fib") ["hi"] =
      .ok .void (constFnCtx "fib") ["hi", "hi"] ∧
    eval 5 (.call (.var "fib" loc0) [.print (.str "hi" loc0) loc0] loc0)
        (constFnCtx "fib") [] =
      .ok (.int 0) (constFnCtx "fib") ["hi", "hi"] ∧
    eval 5 (.call (.var "g" loc0) [.print (.str "hi" loc0) loc0] loc0)
        (constFnCtx "g") [] =
      .ok (.int 0) (constFnCtx "g") ["hi"] := by
  refine ⟨rfl, rfl, ?_, ?_⟩
  · exact fib_arg_double_eval.1 2 (.print (.str "hi" loc0) loc0) (.int 0 loc0)
      (pa "x") ctx0 loc0 loc0 (constFnCtx "fib") (constFnCtx "fib") (constFnCtx "fib")
      (.mk (some (constFnCtx "fib")) [("x", .void)]) [] ["hi"] ["hi", "hi"] ["hi", "hi"]
      .void .void (.int 0) rfl (fun n h => Output.noConfusion h) rfl rfl rfl
  · exact fib_arg_double_eval.2 2 "g" (.print (.str "hi" loc0) loc0) (.int 0 loc0)
      (pa "x") ctx0 loc0 loc0 (constFnCtx "g") (constFnCtx "g")
      (.mk (some (constFnCtx "g")) [("x", .void)]) [] ["hi"] ["hi"]
      .void (.int 0) (by decide) rfl rfl rfl

/-- The `fact` binding is visible through one more call frame. -/
theorem factLookup_lift (ctx : Context) (v : Output)
    (hl : ctxLookup "fact" ctx = some factClosure) :
    ctxLookup "fact" (.mk (some ctx) [("x", v)]) = some factClosure := by
  simp [ctxLookup, mapGet, hl]

/-- One unfolding of the factorial body in the non-zero case: with `x`
bound to `j + 1` and `fact` bound to a one-parameter closure with body `B`,
the body of that closure runs once with `x` bound to `j` (in a child frame
of the call site), and its integer result is multiplied by `j + 1`. -/
theorem factBody_step (j : Nat) (B : Term) (cap ctx ctxR : Context)
    (out : List String) (R : Int)
    (hl : ctxLookup "fact" ctx = some (.closure B [pa "x"] cap))
    (hrec : eval (4 * j + 3) B
        (.mk (some (.mk (some ctx) [("x", .int ((j : Int) + 1))])) [("x", .int j)]) out =
      .ok (.int R) ctxR out) :
    eval (4 * (j + 1) + 3) factBody (.mk (some ctx) [("x", .int ((j : Int) + 1))]) out =
      .ok (.int (((j : Int) + 1) * R)) (.mk (some ctx) [("x", .int ((j : Int) + 1))]) out := by
  have hlS : ctxLookup "fact" (.mk (some ctx) [("x", .int ((j : Int) + 1))]) =
      some (.closure B [pa "x"] cap) := by
    simp [ctxLookup, mapGet, hl]
  have hsub : ((j : Int) + 1) - 1 = (j : Int) := by ring
  have hne : (((j : Int) + 1) == 0) = false := by
    simp only [beq_eq_false_iff_ne, ne_eq]
    omega
  simp only [show 4 * (j + 1) + 3 = (4 * j + 6) + 1 by ring]
  simp [factBody, eval, evalCallOrdinary, evalArgs, applyBinary, beqOutput,
    ctxLookup, mapGet, mapInsert, Context.inner, Context.outter, hl, hlS,
    pa, hsub, hrec, hne,
    show 4 * j + 6 = (4 * j + 5) + 1 by ring,
    show 4 * j + 5 = (4 * j + 4) + 1 by ring,
    show 4 * j + 4 = (4 * j + 3) + 1 by ring,
    show 4 * j + 3 = (4 * j + 2) + 1 by ring,
    show 4 * j + 2 = (4 * j + 1) + 1 by ring]

/-- Evaluating the factorial body with `x` bound to `k` in any context
where `fact` resolves to the factorial closure yields `k!`, with fuel
`4 * k + 3`. -/
theorem factBody_correct (k : Nat) :
    ∀ (ctx : Context) (out : List String),
      ctxLookup "fact" ctx = some factClosure →
      eval (4 * k + 3) factBody (.mk (some ctx) [("x", .int k)]) out =
        .ok (.int (Nat.factorial k)) (.mk (some ctx) [("x", .int k)]) out := by
  induction k with
  | zero =>
    intro ctx out hl
    simp [factBody, eval, applyBinary, beqOutput, ctxLookup, mapGet, Nat.factorial]
  | succ j ih =>
    intro ctx out hl
    have hlS := factLookup_lift ctx (.int ((j : Int) + 1)) hl
    have ihS := ih (.mk (some ctx) [("x", .int ((j : Int) + 1))]) out hlS
    have h := factBody_step j factBody ctx0 ctx
      (.mk (some (.mk (some ctx) [("x", .int ((j : Int) + 1))])) [("x", .int j)])
      out (Nat.factorial j) (by simpa [factClosure] using hl) ihS
    have harith : ((j : Int) + 1) * (Nat.factorial j : Int) =
        (Nat.factorial (j + 1) : Int) := by
      rw [Nat.factorial_succ]; push_cast; ring
    push_cast
    rw [h, harith]

/-- Claim C3: the guest program
`let fact = fn (x) => if (x == 0) { 1 } else { x * fact(x - 1) }; fact(n)`
— a `Let`-bound function (named `fact`, not the fast-path name) that calls
itself by name — terminates for every `n` with the mathematically correct
result `n!` (fuel `4 * n + 6` suffices exactly); self-recursion works even
though the name is resolved dynamically through the caller's scope chain. -/
theorem guest_factorial_correct (n : Nat) :
    eval (4 * n + 6) (factProg n) ctx0 [] = .ok (.int (Nat.factorial n)) factCtx [] := by
  have hbody := factBody_correct n factCtx [] (by simp [ctxLookup, mapGet, factCtx])
  have hlook : ctxLookup "fact" factCtx = some (.closure factBody [pa "x"] ctx0) := rfl
  have hins : ctxInsert "fact" (.closure factBody [pa "x"] ctx0) ctx0 = factCtx := rfl
  rw [show factProg n = .let_ (pa "fact") (.function [pa "x"] factBody loc0)
      (.call (.var "fact" loc0) [.int n loc0] loc0) loc0 from rfl]
  generalize hB : factBody = B at hbody hlook hins ⊢
  simp only [pa] at hlook hins
  simp only [show 4 * n + 6 = (4 * n + 5) + 1 by ring]
  simp [eval, evalCallOrdinary, evalArgs, applyBinary, mapInsert,
    Context.inner, Context.outter, pa, hbody, hlook, hins,
    show 4 * n + 5 = (4 * n + 4) + 1 by ring,
    show 4 * n + 4 = (4 * n + 3) + 1 by ring,
    show 4 * n + 3 = (4 * n + 2) + 1 by ring]

/-- The spec's reference sequence agrees with Mathlib's `Nat.fib`. -/
theorem fibSpec_eq_fib : ∀ n : Nat, fibSpec n = (Nat.fib n : Int)
  | 0 => rfl
  | 1 => rfl
  | n + 2 => by
    rw [fibSpec, Nat.fib_add_two, fibSpec_eq_fib (n + 1), fibSpec_eq_fib n]
    push_cast
    ring

/-- Loop invariant of `__fib_iter`: starting from the pair
`(F k, F (k+1))`, `n` iterations reach `(F (k+n), F (k+n+1))`. -/
theorem fibIterLoop_spec (n : Nat) :
    ∀ k : Nat, fibIterLoop n (fibSpec k, fibSpec (k + 1)) =
      (fibSpec (k + n), fibSpec (k + n + 1)) := by
  induction n with
  | zero => intro k; simp [fibIterLoop]
  | succ n ih =>
    intro k
    rw [fibIterLoop, show fibSpec k + fibSpec (k + 1) = fibSpec (k + 2) by
      rw [fibSpec]; ring, ih (k + 1)]
    congr 2 <;> omega

/-- `__fib_iter` computes the reference sequence at `nth.toNat` (for a
negative `nth` the loop does not run and the result is `F 0 = 0`). -/
theorem fib_iter_eq_fibSpec (nth : Int) : __fib_iter nth = fibSpec nth.toNat := by
  have h := fibIterLoop_spec nth.toNat 0
  simp only [Nat.zero_add] at h
  simp [__fib_iter, show fibSpec 0 = 0 from rfl, show fibSpec 1 = 1 from rfl] at h ⊢
  rw [h]

/-- `__pow` on the Fibonacci matrix: for `k + 1 ≥ 1` and enough fuel the
exponentiation-by-squaring recursion terminates with the matrix
`[[F (k+2), F (k+1)], [F (k+1), F k]]`. -/
theorem pow_fibInit (fuel : Nat) :
    ∀ k : Nat, k + 1 ≤ fuel →
      __pow fuel fibInit ((k + 1 : Nat) : Int) =
        some ⟨(Nat.fib (k + 2) : Int), (Nat.fib (k + 1) : Int),
              (Nat.fib (k + 1) : Int), (Nat.fib k : Int)⟩ := by
  induction fuel with
  | zero => intro k hk; omega
  | succ f ih =>
    intro k hk
    match k with
    | 0 => simp [__pow, fibInit]
    | i + 1 =>
      rw [__pow]
      have hne : ((i + 1 + 1 : Nat) : Int) ≠ 1 := by push_cast; omega
      rw [if_neg hne]
      have htmod : ((i + 1 + 1 : Nat) : Int).tmod 2 = (((i + 2) % 2 : Nat) : Int) := rfl
      rcases Nat.even_or_odd i with he | ho
      · -- i even, so i + 2 even: square the half power
        obtain ⟨m, hm⟩ := he
        have hmod : ((i + 2) % 2 : Nat) = 0 := by omega
        rw [if_pos (by rw [htmod, hmod]; rfl)]
        have htdiv : ((i + 1 + 1 : Nat) : Int).tdiv 2 = (((i + 2) / 2 : Nat) : Int) := rfl
        have hdiv : (i + 2) / 2 = m + 1 := by omega
        rw [htdiv, hdiv, ih m (by omega)]
        have e1 := Nat.fib_add (m + 1) (m + 1)
        have e2 := Nat.fib_add (m + 1) m
        have e3 := Nat.fib_add m m
        rw [show m + 1 + (m + 1) + 1 = i + 3 by omega] at e1
        rw [show m + 1 + m + 1 = i + 2 by omega] at e2
        rw [show m + m + 1 = i + 1 by omega] at e3
        simp only [__matrix__x, Option.some.injEq, Matrix2x2.mk.injEq,
          show i + 1 + 2 = i + 3 by omega, show i + 1 + 1 = i + 2 by omega]
        refine ⟨?_, ?_, ?_, ?_⟩ <;> push_cast [e1, e2, e3] <;> ring
      · -- i odd, so i + 2 odd: multiply by the base matrix
        obtain ⟨m, hm⟩ := ho
        have hmod : ((i + 2) % 2 : Nat) = 1 := by omega
        rw [if_neg (by rw [htmod, hmod]; decide)]
        have hsub : ((i + 1 + 1 : Nat) : Int) - 1 = ((i + 1 : Nat) : Int) := by
          push_cast; ring
        rw [hsub, ih i (by omega)]
        have e1 : Nat.fib (i + 3) = Nat.fib (i + 1) + Nat.fib (i + 2) := Nat.fib_add_two
        have e2 : Nat.fib (i + 2) = Nat.fib i + Nat.fib (i + 1) := Nat.fib_add_two
        simp only [__matrix__x, fibInit, Option.some.injEq, Matrix2x2.mk.injEq,
          show i + 1 + 2 = i + 3 by omega, show i + 1 + 1 = i + 2 by omega]
        refine ⟨?_, ?_, ?_, ?_⟩ <;> push_cast [e1, e2] <;> ring

/-- The `__pow` recursion never terminates on exponent `0`: the even branch
recurses on `0 / 2 = 0` forever, so every fuel is exhausted. -/
theorem pow_zero_none (fuel : Nat) (m : Matrix2x2) : __pow fuel m 0 = none := by
  induction fuel with
  | zero => rfl
  | succ f ih => rw [__pow]; simp [ih]

/-- `__fib_matrix` computes the reference sequence for every `nth ≥ 1`
(its self-chosen fuel `nth.toNat + 1` is sufficient there). -/
theorem fib_matrix_eq_fibSpec (n : Int) (h : 1 ≤ n) :
    __fib_matrix n = fibSpec n.toNat := by
  obtain ⟨k, hk⟩ : ∃ k, n.toNat = k + 1 := ⟨n.toNat - 1, by omega⟩
  have hcast : ((k + 1 : Nat) : Int) = n := by omega
  have hp := pow_fibInit (n.toNat + 1) k (by omega)
  rw [hcast] at hp
  rw [__fib_matrix, hp, fibSpec_eq_fib, hk]

/-- Claim C4 counterexample: at `n = 0` the matrix-power fast path does not
terminate — `__pow` returns `none` for every fuel, so no fuel witnesses a
result — while the iterative fast path does terminate there with
`F 0 = 0`. -/
theorem matrix_fastpath_diverges_at_zero :
    (∀ fuel : Nat, __pow fuel fibInit 0 = none) ∧ __fib_iter 0 = 0 :=
  ⟨fun fuel => pow_zero_none fuel fibInit, rfl⟩

/-- Claim C4 (amended): for every `n ≥ 0` the iterative fast path returns
the reference value `F (n.toNat)`; for every `n ≥ 1` the matrix-power
recursion also terminates and returns the same reference value — so the
two algorithms agree, in particular on both sides of the `n = 1000`
threshold; only at `n = 0` does the matrix recursion fail to terminate. -/
theorem fastpaths_agree (n : Int) (h0 : 0 ≤ n) :
    __fib_iter n = fibSpec n.toNat ∧
    (1 ≤ n → powTerminates n ∧ __fib_matrix n = fibSpec n.toNat) := by
  refine ⟨fib_iter_eq_fibSpec n, fun h1 => ⟨?_, fib_matrix_eq_fibSpec n h1⟩⟩
  obtain ⟨k, hk⟩ : ∃ k, n.toNat = k + 1 := ⟨n.toNat - 1, by omega⟩
  have hcast : ((k + 1 : Nat) : Int) = n := by omega
  have hp := pow_fibInit (k + 1) k (by omega)
  rw [hcast] at hp
  exact ⟨k + 1, _, hp⟩

/-- Witness for `fastpaths_agree` at `n = 7`: both fast paths agree with
`F 7 = 13`. -/
theorem fastpaths_agree_witness :
    (0 : Int) ≤ 7 ∧
      (__fib_iter 7 = fibSpec (7 : Int).toNat ∧
        (1 ≤ (7 : Int) → powTerminates 7 ∧ __fib_matrix 7 = fibSpec (7 : Int).toNat)) :=
  ⟨by decide, fastpaths_agree 7 (by decide)⟩

end Rinha
